import Mathlib

/-!
Shallow embedding of the per-segment transfer engine in
src/src/DownloadCommand.cc (class DownloadCommand of aria2):
the single-step transfer loop executeInternal, the speed-floor check
checkLowestDownloadSpeed, the continuation decision prepareForNextSegment
and the piece-hash validator validatePieceHash.

Collaborator classes (Segment, Socket, TransferEncoding, Decoder, PeerStat,
SegmentMan, RequestGroup) are declared elsewhere in the repository and are
not under src/; where their behaviour decides a claim they are modelled
from the spec, and each such definition says so in its doc comment.

Conventions of the embedding:
* bytes are Nat values; buffers are lists of bytes holding the meaningful
  prefix of the corresponding C buffer (reading past that prefix, which is
  undefined behaviour in the source, is truncated by List.take);
* the socket is the list of bytes currently deliverable; one readData call
  removes and returns its first min(requested, available) bytes;
* size_t subtraction on line 116 of the source is modelled exactly,
  including the unsigned wrap-around, by sizeSub;
* decoder stages are external collaborators: their per-step output and
  finished flags are inputs of the step (fields of StepEnv);
* C++ exceptions are values: the step always returns the final object
  state together with a StepResult that is either the returned Bool or
  the thrown error.
-/

namespace Aria2

/-- Modelled from the spec: the Segment record (Segment.h is not under
src/). Fields index, position, length, writtenLength as in the spec data
model; hashFed is the rolling-hash accumulator state, modelled as the
list of bytes fed to updateHash so far, in order. -/
structure Segment where
  index : Nat
  position : Nat
  length : Nat
  writtenLength : Nat
  hashFed : List Nat
deriving DecidableEq, Repr

/-- Modelled from the spec: a Segment is complete iff length > 0 and
writtenLength = length. -/
def Segment.complete (s : Segment) : Bool :=
  (s.length != 0) && (s.writtenLength == s.length)

/-- Modelled from the spec: Segment.clear discards all progress — it
resets the written length and the hash state. -/
def Segment.clear (s : Segment) : Segment :=
  { s with writtenLength := 0, hashFed := [] }

/-- Modelled from the spec: the current absolute write offset is
position + writtenLength. -/
def Segment.positionToWrite (s : Segment) : Nat :=
  s.position + s.writtenLength

/-- Modelled from the spec: updateHash feeds the given bytes into the
rolling hash. -/
def Segment.updateHash (s : Segment) (data : List Nat) : Segment :=
  { s with hashFed := s.hashFed ++ data }

/-- Modelled from the spec: updateWrittenLength advances the written
length by the number of bytes persisted. -/
def Segment.updateWrittenLength (s : Segment) (n : Nat) : Segment :=
  { s with writtenLength := s.writtenLength + n }

/-- The errors thrown by DownloadCommand, with the context each carries:
DlRetryEx(EX_GOT_EOF), DlRetryEx("Invalid checksum index=...") and
DlAbortEx(EX_TOO_SLOW_DOWNLOAD_SPEED with speed, limit and host). -/
inductive DlError where
  | gotEOF : DlError
  | invalidChecksum (index : Nat) : DlError
  | tooSlow (nowSpeed lowestLimit : Nat) (host : String) : DlError
deriving DecidableEq, Repr

/-- DlRetryEx is retryable; DlAbortEx is fatal for the connection. -/
def DlError.isRetryable : DlError → Bool
  | .gotEOF => true
  | .invalidChecksum _ => true
  | .tooSlow _ _ _ => false

/-- What executeInternal does at the end of a step: return a Bool to the
scheduler, or throw an error. -/
inductive StepResult where
  | ret (b : Bool) : StepResult
  | err (e : DlError) : StepResult
deriving DecidableEq, Repr

/-- The per-command configuration read by DownloadCommand: speed limits and
grace period, whether the optional pipeline stages and piece-hash
validation are configured, the total expected length of the request group
and the host of the request. -/
structure DownloadConfig where
  maxDownloadSpeedLimit : Nat
  lowestDownloadSpeedLimit : Nat
  startupIdleTime : Nat
  pieceHashValidationEnabled : Bool
  hasTransferDecoder : Bool
  hasContentDecoder : Bool
  totalLength : Nat
  host : String

/-- The external collaborators consulted during one step, as inputs:
the aggregate measured speed of the request group, the output and
finished flag each decoder stage would report this step, the measured
speed and elapsed time of this connection, the expected and actual piece
hash strings, the completion state of the request group, whether the
whole-file verification entry is ready, and the segment registry lookup. -/
structure StepEnv where
  aggregateSpeed : Nat
  tdOut : List Nat
  tdFinished : Bool
  cdOut : List Nat
  cdFinished : Bool
  nowSpeed : Nat
  elapsed : Nat
  expectedPieceHash : String
  actualPieceHash : String
  downloadFinished : Bool
  validationReady : Bool
  getSegment : Nat → Option Segment

/-- The mutable state a step works on: the segment list of the command
(front is the current segment), the disk write log (newest first), the
cumulative byte count of this connection in the Speed Tracker, and the
bytes currently deliverable by the socket. -/
structure CommandState where
  segments : List Segment
  writes : List (Nat × List Nat)
  peerStatBytes : Nat
  socketAvail : List Nat
deriving DecidableEq, Repr

/-- The continuation decision of prepareForNextSegment, named as in the
spec state machine. -/
inductive ContinuationDecision where
  | downloadComplete : ContinuationDecision
  | continueSameConnection : ContinuationDecision
  | retryConnection : ContinuationDecision
deriving DecidableEq, Repr

/-- Result of prepareForNextSegment: the decision, the Bool returned to
executeInternal, whether the command pushed itself back on the queue and
how many whole-file verification tasks it enqueued. -/
structure NextOut where
  decision : ContinuationDecision
  ret : Bool
  requeuedSelf : Bool
  verificationTasks : Nat
deriving DecidableEq, Repr

/-- Result of validatePieceHash: the segment as left behind, whether
completeSegment and cancelSegment were invoked on the registry, and the
thrown error if any. -/
structure ValidateOut where
  segment : Segment
  completed : Bool
  cancelled : Bool
  err : Option DlError
deriving DecidableEq, Repr

/-- Everything one executeInternal invocation did: final state, whether
the command re-enqueued itself, the number of verification tasks
enqueued, whether completeSegment or cancelSegment was invoked, whether
the completion branch of line 167 was taken, the continuation decision
when one was made, and the returned or thrown result. -/
structure StepOut where
  st : CommandState
  requeuedSelf : Bool := false
  verificationTasks : Nat := 0
  completedSegment : Bool := false
  cancelledSegment : Bool := false
  tookDoneBranch : Bool := false
  decision : Option ContinuationDecision := none
  result : StepResult
deriving DecidableEq, Repr

/-- Source line 113: the fixed buffer capacity, 16 KiB. -/
def BUFSIZE : Nat := 16 * 1024

/-- size_t subtraction with 64-bit wrap-around, for operands below 2^64:
models getLength() - getWrittenLength() on line 116 of the source. -/
def sizeSub (a b : Nat) : Nat :=
  (2 ^ 64 + a % 2 ^ 64 - b % 2 ^ 64) % 2 ^ 64

/-- Source lines 116-120: the requested read size is
getLength() - getWrittenLength() when the length is positive and that
difference is below BUFSIZE, else BUFSIZE. -/
def requestedBufSize (seg : Segment) : Nat :=
  if 0 < seg.length ∧ sizeSub seg.length seg.writtenLength < BUFSIZE then
    sizeSub seg.length seg.writtenLength
  else
    BUFSIZE

/-- Source line 121: socket->readData(buf, bufSize) delivers the first
min(requested, available) bytes. Modelled from the spec interface
readBytes(buffer, maxLength) -> bytesRead. -/
def rawBytes (seg : Segment) (avail : List Nat) : List Nat :=
  avail.take (requestedBufSize seg)

/-- Source lines 129-139: without a transfer decoder the payload is the
raw buffer and its size; with one, the payload is the decoder output and
the size reported back through the out-length parameter of inflate.
Modelled from the spec: TransferEncoding.h is not under src/; the
out-length parameter of inflate is in-out and holds the produced output
length after the call (the produced length is authoritative). -/
def transferStage (cfg : DownloadConfig) (env : StepEnv) (buf : List Nat) :
    List Nat × Nat :=
  if cfg.hasTransferDecoder then (env.tdOut, env.tdOut.length) else (buf, buf.length)

/-- Source lines 141-150: the bytes actually persisted — the content
decoder output when that stage is configured, else the transfer payload. -/
def persistedBytes (cfg : DownloadConfig) (env : StepEnv) (bufFinal : List Nat) :
    List Nat :=
  if cfg.hasContentDecoder then env.cdOut else bufFinal

/-- Source line 149: with a content decoder, bufSizeFinal is reassigned to
out.size(); without one it stays the transfer-stage size. -/
def contentStageLength (cfg : DownloadConfig) (env : StepEnv) (tdLen : Nat) : Nat :=
  if cfg.hasContentDecoder then env.cdOut.length else tdLen

/-- Source lines 152-160: the segment after the hash update and the
written-length bookkeeping of one step. The hash update (line 155) passes
the bufFinal pointer with length bufSizeFinal, so it feeds the first
bufSizeFinal bytes of the transfer payload, not the persisted bytes. -/
def bookkeptSegment (cfg : DownloadConfig) (env : StepEnv) (seg : Segment)
    (avail : List Nat) : Segment :=
  let buf := rawBytes seg avail
  let td := transferStage cfg env buf
  let n := contentStageLength cfg env td.2
  let seg1 := if cfg.pieceHashValidationEnabled then seg.updateHash (td.1.take n) else seg
  seg1.updateWrittenLength n

/-- Source lines 167-169: the completion test of one step. -/
def segmentTransferDone (hasTD tdFinished : Bool) (seg : Segment) (bufSize : Nat) :
    Bool :=
  (hasTD && tdFinished) || (!hasTD && seg.complete) || (bufSize == 0)

/-- Source lines 265-283: validatePieceHash. On a match it marks the
segment complete in the registry; on a mismatch it clears the segment,
cancels its ownership and throws a retryable error carrying the segment
index. -/
def validatePieceHash (seg : Segment) (expected actual : String) : ValidateOut :=
  if actual = expected then
    { segment := seg, completed := true, cancelled := false, err := none }
  else
    { segment := seg.clear, completed := false, cancelled := true,
      err := some (.invalidChecksum seg.index) }

/-- Source lines 219-231: checkLowestDownloadSpeed. Once the grace period
startupIdleTime has elapsed since the download start of this connection,
a configured positive floor together with a measured speed at or below it
throws DlAbortEx with the speed, the limit and the host. The elapsed test
is modelled from the spec (Time.h is not under src/): it holds iff the
elapsed time is at least the grace period. -/
def checkLowestDownloadSpeed (cfg : DownloadConfig) (elapsed nowSpeed : Nat) :
    Option DlError :=
  if cfg.startupIdleTime ≤ elapsed then
    if 0 < cfg.lowestDownloadSpeedLimit ∧ nowSpeed ≤ cfg.lowestDownloadSpeedLimit then
      some (.tooSlow nowSpeed cfg.lowestDownloadSpeedLimit cfg.host)
    else
      none
  else
    none

/-- Source lines 233-261: prepareForNextSegment. If the request group
reports the download finished, return true and enqueue one whole-file
verification task when the check-integrity entry is ready. Otherwise, if
the command holds a segment and the registry yields the segment at
index + 1 with zero written length, re-enqueue self and return false; in
every other case fall back to prepareForRetry (modelled from the spec:
AbstractCommand.cc is not under src/; prepareForRetry relinquishes the
segment and returns true, the command being replaced). -/
def prepareForNextSegment (downloadFinished validationReady : Bool)
    (segments : List Segment) (getSegment : Nat → Option Segment) : NextOut :=
  if downloadFinished then
    { decision := .downloadComplete, ret := true, requeuedSelf := false,
      verificationTasks := if validationReady then 1 else 0 }
  else
    match segments with
    | [] =>
      { decision := .retryConnection, ret := true, requeuedSelf := false,
        verificationTasks := 0 }
    | seg :: _ =>
      match getSegment (seg.index + 1) with
      | some nxt =>
        if nxt.writtenLength = 0 then
          { decision := .continueSameConnection, ret := false, requeuedSelf := true,
            verificationTasks := 0 }
        else
          { decision := .retryConnection, ret := true, requeuedSelf := false,
            verificationTasks := 0 }
      | none =>
        { decision := .retryConnection, ret := true, requeuedSelf := false,
          verificationTasks := 0 }

/-- Shared tail of the completion branch, source lines 209-211: after the
segment was marked complete, run the speed-floor check, then delegate to
prepareForNextSegment. -/
def finishStep (cfg : DownloadConfig) (env : StepEnv) (st1 : CommandState) : StepOut :=
  match checkLowestDownloadSpeed cfg env.elapsed env.nowSpeed with
  | some e =>
    { st := st1, completedSegment := true, tookDoneBranch := true, result := .err e }
  | none =>
    let nx := prepareForNextSegment env.downloadFinished env.validationReady
      st1.segments env.getSegment
    { st := st1, completedSegment := true, tookDoneBranch := true,
      requeuedSelf := nx.requeuedSelf, verificationTasks := nx.verificationTasks,
      decision := some nx.decision, result := .ret nx.ret }

/-- Source lines 103-217: one executeInternal step. Lines 104-109 throttle
before any read; line 111 takes the front segment (the scheduler never
invokes the step with an empty segment list, so the empty case is an
unreachable stub returning the state unchanged); lines 113-162 read,
decode, persist, hash and account; lines 164-166 throw on premature EOF;
lines 167-216 run the completion test, piece-hash validation, the
speed-floor check and the continuation decision. -/
def executeInternal (cfg : DownloadConfig) (env : StepEnv) (st : CommandState) :
    StepOut :=
  if 0 < cfg.maxDownloadSpeedLimit ∧ cfg.maxDownloadSpeedLimit < env.aggregateSpeed then
    { st := st, requeuedSelf := true, result := .ret false }
  else
    match st.segments with
    | [] => { st := st, result := .ret false }
    | seg :: rest =>
      let buf := rawBytes seg st.socketAvail
      let bufSize := buf.length
      let td := transferStage cfg env buf
      let outBytes := persistedBytes cfg env td.1
      let seg2 := bookkeptSegment cfg env seg st.socketAvail
      let st1 : CommandState :=
        { segments := seg2 :: rest,
          writes := (seg.positionToWrite, outBytes) :: st.writes,
          peerStatBytes := st.peerStatBytes + bufSize,
          socketAvail := st.socketAvail.drop (requestedBufSize seg) }
      if cfg.totalLength ≠ 0 ∧ bufSize = 0 then
        { st := st1, result := .err .gotEOF }
      else if segmentTransferDone cfg.hasTransferDecoder env.tdFinished seg2 bufSize then
        if cfg.pieceHashValidationEnabled && (env.expectedPieceHash != "") then
          let v := validatePieceHash seg2 env.expectedPieceHash env.actualPieceHash
          match v.err with
          | some e =>
            { st := { st1 with segments := v.segment :: rest },
              cancelledSegment := true, tookDoneBranch := true, result := .err e }
          | none => finishStep cfg env st1
        else
          finishStep cfg env st1
      else
        match checkLowestDownloadSpeed cfg env.elapsed env.nowSpeed with
        | some e => { st := st1, tookDoneBranch := false, result := .err e }
        | none => { st := st1, requeuedSelf := true, result := .ret false }

/-- Read one byte back from the write log: the newest write covering the
offset wins. -/
def readPersisted : List (Nat × List Nat) → Nat → Option Nat
  | [], _ => none
  | (off, data) :: rest, i =>
    if off ≤ i ∧ i < off + data.length then data[i - off]? else readPersisted rest i

/-- The persisted bytes of an offset range, read back from the write log. -/
def persistedRange (writes : List (Nat × List Nat)) (off len : Nat) :
    List (Option Nat) :=
  (List.range len).map fun k => readPersisted writes (off + k)

/-- Iterate executeInternal over a list of per-step environments,
threading the state. -/
def runSteps (cfg : DownloadConfig) (envs : List StepEnv) (st : CommandState) :
    CommandState :=
  match envs with
  | [] => st
  | e :: es => runSteps cfg es (executeInternal cfg e st).st

/-- The written-length invariant of the front segment: its declared length
is L and its written length never exceeds L. -/
def wlInvariant (L : Nat) (st : CommandState) : Prop :=
  ∀ s ∈ st.segments.head?, s.length = L ∧ s.writtenLength ≤ L

/-- Laboratory fixture: a step environment with every collaborator quiet. -/
def baseEnv : StepEnv :=
  { aggregateSpeed := 0, tdOut := [], tdFinished := false, cdOut := [],
    cdFinished := false, nowSpeed := 0, elapsed := 0, expectedPieceHash := "",
    actualPieceHash := "", downloadFinished := false, validationReady := false,
    getSegment := fun _ => none }

/-- Laboratory fixture: a configuration with no limits, no decoders and no
piece-hash validation. -/
def baseCfg : DownloadConfig :=
  { maxDownloadSpeedLimit := 0, lowestDownloadSpeedLimit := 0,
    startupIdleTime := 100, pieceHashValidationEnabled := false,
    hasTransferDecoder := false, hasContentDecoder := false,
    totalLength := 10, host := "example.org" }

/-- Laboratory fixture: a segment with an empty hash accumulator. -/
def mkSeg (i pos len wl : Nat) : Segment :=
  { index := i, position := pos, length := len, writtenLength := wl, hashFed := [] }

/-- Laboratory fixture: a fresh command state. -/
def mkState (segs : List Segment) (avail : List Nat) : CommandState :=
  { segments := segs, writes := [], peerStatBytes := 0, socketAvail := avail }

/-! ## Helper lemmas -/

theorem sizeSub_of_le {a b : Nat} (hba : b ≤ a) (ha : a < 2 ^ 64) :
    sizeSub a b = a - b := by
  unfold sizeSub
  omega

theorem requestedBufSize_le {seg : Segment} (hwl : seg.writtenLength ≤ seg.length)
    (h0 : 0 < seg.length) (hL : seg.length < 2 ^ 64) :
    requestedBufSize seg ≤ seg.length - seg.writtenLength := by
  have hs := sizeSub_of_le hwl hL
  unfold requestedBufSize
  rw [hs]
  split
  · exact le_refl _
  · next hcond =>
    omega

theorem rawBytes_length_le (seg : Segment) (avail : List Nat) :
    (rawBytes seg avail).length ≤ requestedBufSize seg := by
  simp [rawBytes]

theorem bookkept_length (cfg : DownloadConfig) (env : StepEnv) (seg : Segment)
    (avail : List Nat) :
    (bookkeptSegment cfg env seg avail).length = seg.length := by
  unfold bookkeptSegment
  split <;> rfl

theorem bookkept_index (cfg : DownloadConfig) (env : StepEnv) (seg : Segment)
    (avail : List Nat) :
    (bookkeptSegment cfg env seg avail).index = seg.index := by
  unfold bookkeptSegment
  split <;> rfl

theorem bookkept_writtenLength (cfg : DownloadConfig) (env : StepEnv) (seg : Segment)
    (avail : List Nat) :
    (bookkeptSegment cfg env seg avail).writtenLength =
      seg.writtenLength +
        contentStageLength cfg env (transferStage cfg env (rawBytes seg avail)).2 := by
  unfold bookkeptSegment
  split <;> rfl

theorem bookkept_no_decoder_writtenLength (cfg : DownloadConfig) (env : StepEnv)
    (seg : Segment) (avail : List Nat)
    (hT : cfg.hasTransferDecoder = false) (hC : cfg.hasContentDecoder = false) :
    (bookkeptSegment cfg env seg avail).writtenLength =
      seg.writtenLength + (rawBytes seg avail).length := by
  rw [bookkept_writtenLength]
  unfold contentStageLength transferStage
  rw [hT, hC]
  simp

theorem validate_err_some {seg : Segment} {expected actual : String} {e : DlError}
    (h : (validatePieceHash seg expected actual).err = some e) :
    (validatePieceHash seg expected actual).segment = seg.clear := by
  unfold validatePieceHash at *
  split at h <;> simp_all

theorem finishStep_tookDoneBranch (cfg : DownloadConfig) (env : StepEnv)
    (st1 : CommandState) : (finishStep cfg env st1).tookDoneBranch = true := by
  unfold finishStep
  split <;> rfl

theorem finishStep_st (cfg : DownloadConfig) (env : StepEnv) (st1 : CommandState) :
    (finishStep cfg env st1).st = st1 := by
  unfold finishStep
  split <;> rfl

theorem finishStep_cancelled (cfg : DownloadConfig) (env : StepEnv)
    (st1 : CommandState) : (finishStep cfg env st1).cancelledSegment = false := by
  unfold finishStep
  split <;> rfl

theorem executeInternal_parts (cfg : DownloadConfig) (env : StepEnv)
    (st : CommandState) (seg : Segment) (rest : List Segment)
    (hth : ¬(0 < cfg.maxDownloadSpeedLimit ∧
      cfg.maxDownloadSpeedLimit < env.aggregateSpeed))
    (hs : st.segments = seg :: rest) :
    ((executeInternal cfg env st).st.writes =
      (seg.positionToWrite,
        persistedBytes cfg env
          (transferStage cfg env (rawBytes seg st.socketAvail)).1) :: st.writes) ∧
    ((executeInternal cfg env st).st.segments =
        bookkeptSegment cfg env seg st.socketAvail :: rest ∨
      ((executeInternal cfg env st).st.segments =
          (bookkeptSegment cfg env seg st.socketAvail).clear :: rest ∧
        (executeInternal cfg env st).cancelledSegment = true)) ∧
    ((executeInternal cfg env st).cancelledSegment = false →
      (executeInternal cfg env st).st.segments =
        bookkeptSegment cfg env seg st.socketAvail :: rest) ∧
    ((executeInternal cfg env st).st.peerStatBytes =
      st.peerStatBytes + (rawBytes seg st.socketAvail).length) := by
  simp only [executeInternal, if_neg hth, hs]
  split
  · exact ⟨rfl, Or.inl rfl, fun _ => rfl, rfl⟩
  · split
    · split
      · split
        · next e heq =>
          have hseg := validate_err_some heq
          rw [hseg]
          refine ⟨rfl, Or.inr ⟨rfl, rfl⟩, fun h => ?_, rfl⟩
          simp at h
        · refine ⟨?_, Or.inl ?_, fun _ => ?_, ?_⟩ <;>
            rw [finishStep_st]
      · refine ⟨?_, Or.inl ?_, fun _ => ?_, ?_⟩ <;>
          rw [finishStep_st]
    · split
      · exact ⟨rfl, Or.inl rfl, fun _ => rfl, rfl⟩
      · exact ⟨rfl, Or.inl rfl, fun _ => rfl, rfl⟩

theorem step_preserves_wlInvariant (cfg : DownloadConfig) (env : StepEnv)
    (st : CommandState) (L : Nat)
    (hT : cfg.hasTransferDecoder = false) (hC : cfg.hasContentDecoder = false)
    (h0 : 0 < L) (hL : L < 2 ^ 64)
    (hinv : wlInvariant L st) : wlInvariant L (executeInternal cfg env st).st := by
  by_cases hth : 0 < cfg.maxDownloadSpeedLimit ∧
      cfg.maxDownloadSpeedLimit < env.aggregateSpeed
  · unfold executeInternal
    rw [if_pos hth]
    exact hinv
  · cases hseg : st.segments with
    | nil =>
      simp only [executeInternal, if_neg hth, hseg]
      exact hinv
    | cons seg rest =>
      obtain ⟨hwr, hdi, hnc, hpe⟩ := executeInternal_parts cfg env st seg rest hth hseg
      have hseg0 : seg.length = L ∧ seg.writtenLength ≤ L := by
        refine hinv seg ?_
        rw [hseg]
        rfl
      have hb : (bookkeptSegment cfg env seg st.socketAvail).writtenLength ≤ L := by
        rw [bookkept_no_decoder_writtenLength cfg env seg st.socketAvail hT hC]
        have h1 := rawBytes_length_le seg st.socketAvail
        have h2 : requestedBufSize seg ≤ seg.length - seg.writtenLength :=
          requestedBufSize_le (by omega) (by omega) (by omega)
        omega
      intro s hmem
      rcases hdi with hdi | ⟨hdi, _⟩
      · rw [hdi] at hmem
        simp only [List.head?_cons, Option.mem_def, Option.some.injEq] at hmem
        subst hmem
        constructor
        · rw [bookkept_length]
          exact hseg0.1
        · exact hb
      · rw [hdi] at hmem
        simp only [List.head?_cons, Option.mem_def, Option.some.injEq] at hmem
        subst hmem
        constructor
        · show (bookkeptSegment cfg env seg st.socketAvail).length = L
          rw [bookkept_length]
          exact hseg0.1
        · exact Nat.zero_le L

/-! ## Claim theorems -/

/-- Claim C10: when the configured lowest-speed floor is zero (no floor is
set), the speed-floor check raises nothing, regardless of the elapsed time
since start and of the measured speed. -/
theorem checkLowestDownloadSpeed_noFloor (cfg : DownloadConfig)
    (elapsed nowSpeed : Nat) (h : cfg.lowestDownloadSpeedLimit = 0) :
    checkLowestDownloadSpeed cfg elapsed nowSpeed = none := by
  unfold checkLowestDownloadSpeed
  rw [h]
  simp

/-- Claim C10 witness. -/
theorem checkLowestDownloadSpeed_noFloor_witness :
    checkLowestDownloadSpeed
      { baseCfg with lowestDownloadSpeedLimit := 0, startupIdleTime := 0 }
      5000 0 = none :=
  checkLowestDownloadSpeed_noFloor _ 5000 0 rfl

/-- Claim C7: before the startup grace period has elapsed since this
connection started, the speed-floor check raises nothing regardless of the
measured speed; once the grace period has elapsed, a configured positive
floor together with a measured speed at or below it makes the check raise
the fatal (non-retryable) too-slow error carrying the host and the
measured versus configured speed. -/
theorem checkLowestDownloadSpeed_spec (cfg : DownloadConfig)
    (elapsed nowSpeed : Nat) :
    (elapsed < cfg.startupIdleTime →
      checkLowestDownloadSpeed cfg elapsed nowSpeed = none) ∧
    (cfg.startupIdleTime ≤ elapsed → 0 < cfg.lowestDownloadSpeedLimit →
      nowSpeed ≤ cfg.lowestDownloadSpeedLimit →
      checkLowestDownloadSpeed cfg elapsed nowSpeed =
        some (.tooSlow nowSpeed cfg.lowestDownloadSpeedLimit cfg.host) ∧
      DlError.isRetryable
        (.tooSlow nowSpeed cfg.lowestDownloadSpeedLimit cfg.host) = false) := by
  constructor
  · intro h
    unfold checkLowestDownloadSpeed
    rw [if_neg (by omega)]
  · intro h1 h2 h3
    unfold checkLowestDownloadSpeed
    rw [if_pos h1, if_pos ⟨h2, h3⟩]
    exact ⟨rfl, rfl⟩

/-- Claim C7 witness: grace period 30; at elapsed 10 a speed of 0 raises
nothing; at elapsed 30 a speed of 5 at floor 5 raises the fatal error. -/
theorem checkLowestDownloadSpeed_spec_witness :
    (checkLowestDownloadSpeed
      { baseCfg with lowestDownloadSpeedLimit := 5, startupIdleTime := 30 }
      10 0 = none) ∧
    (checkLowestDownloadSpeed
      { baseCfg with lowestDownloadSpeedLimit := 5, startupIdleTime := 30 }
      30 5 =
        some (.tooSlow 5 5 "example.org") ∧
      DlError.isRetryable (.tooSlow 5 5 "example.org") = false) :=
  ⟨(checkLowestDownloadSpeed_spec _ 10 0).1 (by decide),
   (checkLowestDownloadSpeed_spec _ 30 5).2 (by decide) (by decide) (by decide)⟩

/-- Claim C5: on a hash mismatch the validator resets the written length
and the hash state of the segment, releases it from this connection (the
registry cancel call), and raises a retryable error carrying the segment
index; on a match it marks the segment complete in the registry and
raises no error. -/
theorem validatePieceHash_spec (seg : Segment) (expected actual : String) :
    (actual = expected →
      validatePieceHash seg expected actual =
        { segment := seg, completed := true, cancelled := false, err := none }) ∧
    (actual ≠ expected →
      validatePieceHash seg expected actual =
        { segment := { seg with writtenLength := 0, hashFed := [] },
          completed := false, cancelled := true,
          err := some (.invalidChecksum seg.index) } ∧
      DlError.isRetryable (.invalidChecksum seg.index) = true) := by
  constructor
  · intro h
    unfold validatePieceHash
    rw [if_pos h]
  · intro h
    unfold validatePieceHash
    rw [if_neg h]
    exact ⟨rfl, rfl⟩

/-- Claim C5 witness: the spec test vector — expected hash abc123,
computed hash def456 at segment index 3. -/
theorem validatePieceHash_spec_witness :
    validatePieceHash (mkSeg 3 0 2 2) "abc123" "def456" =
      { segment := { mkSeg 3 0 2 2 with writtenLength := 0, hashFed := [] },
        completed := false, cancelled := true,
        err := some (.invalidChecksum (mkSeg 3 0 2 2).index) } ∧
    DlError.isRetryable (.invalidChecksum (mkSeg 3 0 2 2).index) = true :=
  (validatePieceHash_spec (mkSeg 3 0 2 2) "abc123" "def456").2 (by decide)

/-- Claim C8: a step taken while a positive maximum speed is configured
and the aggregate measured speed exceeds it performs no read, re-enqueues
the command and returns not-done, and leaves the whole command state —
segments (written lengths and hash state), disk write log, Speed Tracker
byte count and pending socket bytes — unchanged. -/
theorem throttled_step_frame (cfg : DownloadConfig) (env : StepEnv)
    (st : CommandState) (h1 : 0 < cfg.maxDownloadSpeedLimit)
    (h2 : cfg.maxDownloadSpeedLimit < env.aggregateSpeed) :
    executeInternal cfg env st =
      { st := st, requeuedSelf := true, verificationTasks := 0,
        completedSegment := false, cancelledSegment := false,
        tookDoneBranch := false, decision := none, result := .ret false } := by
  unfold executeInternal
  rw [if_pos ⟨h1, h2⟩]

/-- Claim C8 witness: limit 5, aggregate speed 9. -/
theorem throttled_step_frame_witness :
    executeInternal { baseCfg with maxDownloadSpeedLimit := 5 }
      { baseEnv with aggregateSpeed := 9 }
      (mkState [mkSeg 0 0 4 1] [3, 4]) =
      { st := mkState [mkSeg 0 0 4 1] [3, 4], requeuedSelf := true,
        verificationTasks := 0, completedSegment := false,
        cancelledSegment := false, tookDoneBranch := false, decision := none,
        result := .ret false } :=
  throttled_step_frame _ _ _ (by decide) (by decide)

/-- Claim C6: when the request group reports the download finished, the
continuation decision is DOWNLOAD_COMPLETE, the step returns done, and
exactly one whole-file verification task is enqueued iff the
check-integrity entry is ready; otherwise, when the command holds a
segment and the registry yields the segment at index + 1 with zero
written length, it re-enqueues itself and returns not-done; in every
other case the decision is RETRY_CONNECTION. -/
theorem prepareForNextSegment_spec (downloadFinished validationReady : Bool)
    (segments : List Segment) (getSegment : Nat → Option Segment) :
    (downloadFinished = true →
      prepareForNextSegment downloadFinished validationReady segments getSegment =
        { decision := .downloadComplete, ret := true, requeuedSelf := false,
          verificationTasks := if validationReady then 1 else 0 }) ∧
    (downloadFinished = false →
      (∀ seg rest nxt, segments = seg :: rest →
        getSegment (seg.index + 1) = some nxt → nxt.writtenLength = 0 →
        prepareForNextSegment downloadFinished validationReady segments getSegment =
          { decision := .continueSameConnection, ret := false,
            requeuedSelf := true, verificationTasks := 0 }) ∧
      (∀ seg rest, segments = seg :: rest →
        (getSegment (seg.index + 1) = none ∨
          ∀ nxt, getSegment (seg.index + 1) = some nxt → nxt.writtenLength ≠ 0) →
        (prepareForNextSegment downloadFinished validationReady segments
          getSegment).decision = .retryConnection) ∧
      (segments = [] →
        (prepareForNextSegment downloadFinished validationReady segments
          getSegment).decision = .retryConnection)) := by
  refine ⟨fun hf => ?_, fun hf => ⟨fun seg rest nxt hs hg hw => ?_,
    fun seg rest hs hg => ?_, fun hs => ?_⟩⟩
  · simp [prepareForNextSegment, hf]
  · simp [prepareForNextSegment, hf, hs, hg, hw]
  · rcases hg with hg | hg
    · simp [prepareForNextSegment, hf, hs, hg]
    · cases hn : getSegment (seg.index + 1) with
      | none => simp [prepareForNextSegment, hf, hs, hn]
      | some nxt => simp [prepareForNextSegment, hf, hs, hn, hg nxt hn]
  · simp [prepareForNextSegment, hf, hs]

/-- Claim C4: in a non-throttled step on a segment, when the total
expected length of the request group is non-zero and the raw read returns
zero bytes, the step throws the retryable premature-EOF error instead of
completing silently. -/
theorem prematureEOF_spec (cfg : DownloadConfig) (env : StepEnv)
    (st : CommandState) (seg : Segment) (rest : List Segment)
    (hth : ¬(0 < cfg.maxDownloadSpeedLimit ∧
      cfg.maxDownloadSpeedLimit < env.aggregateSpeed))
    (hs : st.segments = seg :: rest)
    (htotal : cfg.totalLength ≠ 0)
    (hread : rawBytes seg st.socketAvail = []) :
    (executeInternal cfg env st).result = .err .gotEOF ∧
    DlError.isRetryable .gotEOF = true := by
  refine ⟨?_, rfl⟩
  simp only [executeInternal, if_neg hth, hs, hread]
  simp [htotal]

/-- Claim C4 witness: the spec EOF scenario — total expected length 1000,
500 bytes already persisted, and a read that returns zero bytes. -/
theorem prematureEOF_spec_witness :
    (executeInternal { baseCfg with totalLength := 1000 } baseEnv
      (mkState [mkSeg 0 0 1000 500] [])).result = .err .gotEOF ∧
    DlError.isRetryable .gotEOF = true :=
  prematureEOF_spec _ _ _ (mkSeg 0 0 1000 500) [] (by decide) rfl (by decide) rfl

/-- Claim C9: in a non-throttled step on a segment that does not throw the
premature-EOF error, the completion branch is taken if and only if the
transfer decoder is configured and reports finished, or no transfer
decoder is configured and the segment (after this step's bookkeeping)
reports itself complete, or the raw read of this step returned zero
bytes. -/
theorem doneBranch_iff (cfg : DownloadConfig) (env : StepEnv)
    (st : CommandState) (seg : Segment) (rest : List Segment)
    (hth : ¬(0 < cfg.maxDownloadSpeedLimit ∧
      cfg.maxDownloadSpeedLimit < env.aggregateSpeed))
    (hs : st.segments = seg :: rest)
    (hnoEOF : ¬(cfg.totalLength ≠ 0 ∧ (rawBytes seg st.socketAvail).length = 0)) :
    (executeInternal cfg env st).tookDoneBranch =
      segmentTransferDone cfg.hasTransferDecoder env.tdFinished
        (bookkeptSegment cfg env seg st.socketAvail)
        (rawBytes seg st.socketAvail).length := by
  simp only [executeInternal, if_neg hth, hs, if_neg hnoEOF]
  split
  · next hdone =>
    rw [hdone]
    split
    · split
      · rfl
      · exact finishStep_tookDoneBranch _ _ _
    · exact finishStep_tookDoneBranch _ _ _
  · next hdone =>
    rw [Bool.not_eq_true] at hdone
    rw [hdone]
    split <;> rfl

/-- Claim C9 witness: no transfer decoder, segment of length 2 with both
bytes arriving this step — the bookkept segment is complete and the done
branch is taken. -/
theorem doneBranch_iff_witness :
    (executeInternal baseCfg baseEnv (mkState [mkSeg 0 0 2 0] [7, 7])).tookDoneBranch =
      segmentTransferDone baseCfg.hasTransferDecoder baseEnv.tdFinished
        (bookkeptSegment baseCfg baseEnv (mkSeg 0 0 2 0) [7, 7])
        (rawBytes (mkSeg 0 0 2 0) [7, 7]).length :=
  doneBranch_iff _ _ _ (mkSeg 0 0 2 0) [] (by decide) rfl (by decide)

/-- Claim C3: with a transfer-encoding decoder configured (and no content
decoder), a non-throttled step persists exactly the decoder's produced
output for the raw bytes read — the write of the step is the decoder
output at the segment's write offset — and, unless the step's checksum
validation cancelled the segment, advances the written length by the
decoder's produced output length, not by the fixed 16 KiB buffer
capacity. -/
theorem transferDecoder_producedLength (cfg : DownloadConfig) (env : StepEnv)
    (st : CommandState) (seg : Segment) (rest : List Segment)
    (hT : cfg.hasTransferDecoder = true) (hC : cfg.hasContentDecoder = false)
    (hth : ¬(0 < cfg.maxDownloadSpeedLimit ∧
      cfg.maxDownloadSpeedLimit < env.aggregateSpeed))
    (hs : st.segments = seg :: rest) :
    (executeInternal cfg env st).st.writes.head? =
      some (seg.positionToWrite, env.tdOut) ∧
    ((executeInternal cfg env st).cancelledSegment = false →
      ∀ s ∈ (executeInternal cfg env st).st.segments.head?,
        s.writtenLength = seg.writtenLength + env.tdOut.length) := by
  obtain ⟨hw, _, hnc, _⟩ := executeInternal_parts cfg env st seg rest hth hs
  constructor
  · rw [hw]
    simp only [List.head?_cons]
    unfold persistedBytes transferStage
    rw [hT, hC]
    simp
  · intro hc s hmem
    rw [hnc hc] at hmem
    simp only [List.head?_cons, Option.mem_def, Option.some.injEq] at hmem
    subst hmem
    rw [bookkept_writtenLength]
    unfold contentStageLength transferStage
    rw [hT, hC]
    simp

/-- Claim C3 witness: decoder output of 3 bytes for a 2-byte raw read —
the write is the 3 decoder bytes at offset 54 and the written length
advances by 3, not by 16384. -/
theorem transferDecoder_producedLength_witness :
    (executeInternal { baseCfg with hasTransferDecoder := true }
        { baseEnv with tdOut := [1, 2, 3] }
        (mkState [mkSeg 0 50 100 4] [9, 9])).st.writes.head? =
      some ((mkSeg 0 50 100 4).positionToWrite, [1, 2, 3]) ∧
    ((executeInternal { baseCfg with hasTransferDecoder := true }
        { baseEnv with tdOut := [1, 2, 3] }
        (mkState [mkSeg 0 50 100 4] [9, 9])).cancelledSegment = false →
      ∀ s ∈ (executeInternal { baseCfg with hasTransferDecoder := true }
          { baseEnv with tdOut := [1, 2, 3] }
          (mkState [mkSeg 0 50 100 4] [9, 9])).st.segments.head?,
        s.writtenLength =
          (mkSeg 0 50 100 4).writtenLength + ([1, 2, 3] : List Nat).length) :=
  transferDecoder_producedLength _ _ _ (mkSeg 0 50 100 4) [] rfl rfl (by decide) rfl

/-- Claim C6 witness: with the download not finished, a current segment of
index 2 and an untouched next segment at index 3, the command re-enqueues
itself and returns not-done; with the download finished and validation
ready, exactly one verification task is enqueued. -/
theorem prepareForNextSegment_spec_witness :
    (prepareForNextSegment false false [mkSeg 2 0 4 4]
        (fun i => if i = 3 then some (mkSeg 3 4 4 0) else none) =
      { decision := .continueSameConnection, ret := false, requeuedSelf := true,
        verificationTasks := 0 }) ∧
    (prepareForNextSegment true true [mkSeg 2 0 4 4]
        (fun i => if i = 3 then some (mkSeg 3 4 4 0) else none) =
      { decision := .downloadComplete, ret := true, requeuedSelf := false,
        verificationTasks := if true then 1 else 0 }) :=
  ⟨((prepareForNextSegment_spec false false [mkSeg 2 0 4 4] _).2 rfl).1
      (mkSeg 2 0 4 4) [] (mkSeg 3 4 4 0) rfl (by decide) rfl,
   (prepareForNextSegment_spec true true [mkSeg 2 0 4 4] _).1 rfl⟩

/-- Claim C1 is violated by the source: with piece-hash validation enabled
and a content-encoding decoder configured, line 155 feeds the hash from
the pre-decode buffer bufFinal using the post-decode length bufSizeFinal
(reassigned to out.size() on line 149), not the persisted decoder output.
Concretely: raw payload bytes 5, 6 whose content-decode output is the
single byte 7 — the persisted byte of the segment range is 7, but the
rolling hash is fed the byte 5, so the hash input differs from the
persisted bytes and the round-trip equivalence fails. -/
theorem hashFeed_contentDecoder_divergence :
    (executeInternal
        { baseCfg with pieceHashValidationEnabled := true, hasContentDecoder := true }
        { baseEnv with cdOut := [7] }
        (mkState [mkSeg 0 100 10 0] [5, 6])).st.segments.map Segment.hashFed =
      [[5]] ∧
    persistedRange
      (executeInternal
        { baseCfg with pieceHashValidationEnabled := true, hasContentDecoder := true }
        { baseEnv with cdOut := [7] }
        (mkState [mkSeg 0 100 10 0] [5, 6])).st.writes 100 1 = [some 7] ∧
    ([5] : List Nat) ≠ [7] := by decide

/-- Claim C2, as stated, fails on the source at three concrete inputs:
a content decoder producing 2 bytes from a 1-byte read drives
writtenLength to 2 on a segment of length 1; a transfer decoder reporting
2 produced bytes does the same; and a checksum-mismatch step resets
writtenLength from 1 to 0, breaking monotonicity. -/
theorem writtenLength_claim_counterexample :
    ((executeInternal { baseCfg with hasContentDecoder := true }
        { baseEnv with cdOut := [7, 8] }
        (mkState [mkSeg 0 0 1 0] [9])).st.segments.map
          (fun s => (s.writtenLength, s.length)) = [(2, 1)] ∧ (1 : Nat) < 2) ∧
    ((executeInternal { baseCfg with hasTransferDecoder := true }
        { baseEnv with tdOut := [7, 8] }
        (mkState [mkSeg 0 0 1 0] [9])).st.segments.map
          (fun s => (s.writtenLength, s.length)) = [(2, 1)] ∧ (1 : Nat) < 2) ∧
    ((executeInternal { baseCfg with pieceHashValidationEnabled := true }
        { baseEnv with expectedPieceHash := "abc123", actualPieceHash := "def456" }
        (mkState [mkSeg 3 0 2 1] [9])).st.segments.map Segment.writtenLength =
      [0] ∧ (0 : Nat) < 1) := by decide

/-- Claim C2 (amended): for a segment of positive length below 2^64, when
neither a transfer-encoding nor a content-encoding decoder is configured,
every step preserves writtenLength ≤ length; writtenLength never
decreases in a step except through the documented checksum-mismatch
reset (the step that cancels the segment); and across any sequence of
steps writtenLength never exceeds length. -/
theorem writtenLength_invariant (cfg : DownloadConfig) (env : StepEnv)
    (st : CommandState) (L : Nat)
    (hT : cfg.hasTransferDecoder = false) (hC : cfg.hasContentDecoder = false)
    (h0 : 0 < L) (hL : L < 2 ^ 64) (hinv : wlInvariant L st) :
    wlInvariant L (executeInternal cfg env st).st ∧
    ((executeInternal cfg env st).cancelledSegment = false →
      ∀ s ∈ st.segments.head?,
        ∀ t ∈ (executeInternal cfg env st).st.segments.head?,
          s.writtenLength ≤ t.writtenLength) ∧
    ∀ envs, wlInvariant L (runSteps cfg envs st) := by
  refine ⟨step_preserves_wlInvariant cfg env st L hT hC h0 hL hinv, ?_, ?_⟩
  · intro hc s hmems t hmemt
    by_cases hth : 0 < cfg.maxDownloadSpeedLimit ∧
        cfg.maxDownloadSpeedLimit < env.aggregateSpeed
    · unfold executeInternal at hmemt
      rw [if_pos hth] at hmemt
      have : s = t := by
        simp only [Option.mem_def] at hmems hmemt
        rw [hmems] at hmemt
        exact Option.some.inj hmemt
      rw [this]
    · cases hseg : st.segments with
      | nil =>
        rw [hseg] at hmems
        simp at hmems
      | cons seg rest =>
        obtain ⟨_, _, hnc, _⟩ := executeInternal_parts cfg env st seg rest hth hseg
        have hseq : s = seg := by
          rw [hseg] at hmems
          simp only [List.head?_cons, Option.mem_def, Option.some.injEq] at hmems
          exact hmems.symm
        rw [hnc hc] at hmemt
        simp only [List.head?_cons, Option.mem_def, Option.some.injEq] at hmemt
        subst hmemt
        rw [hseq, bookkept_writtenLength]
        exact Nat.le_add_right _ _
  · suffices h : ∀ envs s, wlInvariant L s → wlInvariant L (runSteps cfg envs s) by
      exact fun envs => h envs st hinv
    intro envs
    induction envs with
    | nil => exact fun s h => h
    | cons e es ih =>
      exact fun s h =>
        ih (executeInternal cfg e s).st (step_preserves_wlInvariant cfg e s L hT hC h0 hL h)

/-- Claim C2 witness: a no-decoder configuration, a segment of length 4
with 1 byte written and one more byte arriving. -/
theorem writtenLength_invariant_witness :
    wlInvariant 4 (executeInternal baseCfg baseEnv (mkState [mkSeg 0 0 4 1] [3])).st ∧
    ((executeInternal baseCfg baseEnv
        (mkState [mkSeg 0 0 4 1] [3])).cancelledSegment = false →
      ∀ s ∈ (mkState [mkSeg 0 0 4 1] [3]).segments.head?,
        ∀ t ∈ (executeInternal baseCfg baseEnv
            (mkState [mkSeg 0 0 4 1] [3])).st.segments.head?,
          s.writtenLength ≤ t.writtenLength) ∧
    ∀ envs, wlInvariant 4 (runSteps baseCfg envs (mkState [mkSeg 0 0 4 1] [3])) :=
  writtenLength_invariant baseCfg baseEnv (mkState [mkSeg 0 0 4 1] [3]) 4
    rfl rfl (by decide) (by decide)
    (fun s hmem => by
      have hset : mkSeg 0 0 4 1 = s := by
        simpa [mkState, Option.mem_def] using hmem
      subst hset
      exact ⟨rfl, by decide⟩)

end Aria2
